import Mathlib

/-!
Verification of the NBA betting model's prediction and paper-trading core.

The development shallowly embeds the decision logic of `simple_model.py`,
`multi_pick_analyzer.py` and `paper_trading.py`.  Monetary amounts, stat
values, lines and probabilities are modelled as exact rationals (`ℚ`);
the Python floats carry the same algebraic structure.  Database access
(player lookup, historical stat retrieval) is external to the core: the
embedded functions take the retrieved data as arguments, mirroring the
shape of the corresponding queries.  Timestamps are not modelled.
-/

namespace NbaBetting

/-- Bet direction, the `direction` field ('OVER' / 'UNDER') of picks and bets. -/
inductive Direction
  | OVER
  | UNDER
deriving DecidableEq, Repr

/-- Lifecycle status of a bet or parlay leg ('pending', 'won', 'lost', 'void'). -/
inductive BetStatus
  | pending
  | won
  | lost
  | void
deriving DecidableEq, Repr

/-- The win condition a direction imposes on a realized value against a line:
`actual > line` for OVER, `actual < line` for UNDER, as computed in
`resolve_single_bet` and `resolve_parlay_bet`. -/
def winCond (d : Direction) (actual line : ℚ) : Prop :=
  match d with
  | .OVER => actual > line
  | .UNDER => actual < line

instance (d : Direction) (actual line : ℚ) : Decidable (winCond d actual line) := by
  cases d <;> simp [winCond] <;> infer_instance

/-! ## simple_model.py — SimplePredictor -/

/-- Embedding of `SimplePredictor.predict_simple_average` restricted to its
prediction component.  The argument `stat_values` is the list of non-null
recent stat values the method extracts from the retrieved games (the database
fetch is external).  Empty data yields `none`; otherwise the prediction is the
arithmetic mean `np.mean(stat_values)`. -/
def predict_simple_average (stat_values : List ℚ) : Option ℚ :=
  if stat_values.length = 0 then none
  else some (stat_values.sum / stat_values.length)

/-- Embedding of `SimplePredictor.predict_weighted_average` restricted to its
prediction component.  Raw weights are `decay_factor ^ i` for game index `i`
(0 = most recent), normalized to sum to 1; the prediction is
`np.sum(stat_values * weights)`. -/
def predict_weighted_average (stat_values : List ℚ) (decay_factor : ℚ) : Option ℚ :=
  if stat_values.length = 0 then none
  else
    let raw := (List.range stat_values.length).map (fun i => decay_factor ^ i)
    let weights := raw.map (fun w => w / raw.sum)
    some (List.zipWith (fun v w => v * w) stat_values weights).sum

/-- Recommendation issued by `SimplePredictor.evaluate_against_line`. -/
inductive LineCall
  | OVER
  | UNDER
  | SKIP
deriving DecidableEq, Repr

/-- Result dictionary of `SimplePredictor.evaluate_against_line`. -/
structure EvalResult where
  prediction : ℚ
  line : ℚ
  std_dev : ℚ
  z_score : ℚ
  prob_over : ℚ
  prob_under : ℚ
  ev_over : ℚ
  ev_under : ℚ
  recommendation : LineCall
  confidence : ℚ
deriving DecidableEq, Repr

/-- Embedding of `SimplePredictor.evaluate_against_line`.  The normal CDF
`scipy.stats.norm.cdf(line, prediction, std_dev)` is an external library
function, passed in as the parameter `normCdf` (arguments in the same order).
`None` prediction or std-dev yields `none`; otherwise
`prob_over = 1 - cdf`, `prob_under = cdf`, EVs at -110 odds use the
0.909 payout per unit, and the recommendation picks the first direction
with positive EV. -/
def evaluate_against_line (normCdf : ℚ → ℚ → ℚ → ℚ)
    (prediction std_dev : Option ℚ) (line : ℚ) : Option EvalResult :=
  match prediction, std_dev with
  | some pred, some sd =>
    let z := if sd > 0 then (pred - line) / sd else 0
    let c := normCdf line pred sd
    let pOver := 1 - c
    let pUnder := c
    let evOver := pOver * (909/1000) - pUnder * 1
    let evUnder := pUnder * (909/1000) - pOver * 1
    some
      { prediction := pred
        line := line
        std_dev := sd
        z_score := z
        prob_over := pOver
        prob_under := pUnder
        ev_over := evOver
        ev_under := evUnder
        recommendation :=
          if evOver > 0 then .OVER else if evUnder > 0 then .UNDER else .SKIP
        confidence := |z| }
  | _, _ => none

/-! ## multi_pick_analyzer.py — Pick, Parlay, MultiPickAnalyzer -/

/-- The `Pick` dataclass.  `prediction` and `probability` start unset and are
filled in by `evaluate_pick`; a pick whose player has no historical data keeps
them `none`. -/
structure Pick where
  line : ℚ
  direction : Direction
  prediction : Option ℚ := none
  probability : Option ℚ := none
deriving DecidableEq, Repr

/-- The recommendation strings produced by `MultiPickAnalyzer.analyze_parlay`.
The `BET` recommendation carries the quarter-Kelly bankroll fraction it
annotates. -/
inductive ParlayCall
  | BET (quarter_kelly : ℚ)
  | SKIP_low_probability
  | SKIP_negative_ev
  | SKIP_insufficient_data
deriving DecidableEq, Repr

/-- The `Parlay` dataclass: picks, payout multiplier, stake, and the derived
fields (all starting unset). -/
structure Parlay where
  picks : List Pick
  payout_multiplier : ℚ
  stake : ℚ := 1
  parlay_probability : Option ℚ := none
  expected_value : Option ℚ := none
  roi : Option ℚ := none
  recommendation : Option ParlayCall := none
deriving DecidableEq, Repr

/-- Product of the probabilities of the picks that carry one, matching
`pick_probabilities = [p.probability for p in parlay.picks if p.probability
is not None]` followed by `np.prod`. -/
def picksProbability (parlay : Parlay) : ℚ :=
  (parlay.picks.filterMap Pick.probability).prod

/-- Embedding of `MultiPickAnalyzer.analyze_parlay` from the point where each
pick has been evaluated (pick evaluation queries the database; a pick that
could not be evaluated carries `probability = none`).  When some pick has no
probability, only the recommendation is set (insufficient data); otherwise the
parlay probability, expected value, ROI and quarter-Kelly recommendation are
computed exactly as in the source. -/
def analyze_parlay (parlay : Parlay) : Parlay :=
  let pick_probabilities := parlay.picks.filterMap Pick.probability
  if pick_probabilities.length ≠ parlay.picks.length then
    { parlay with recommendation := some .SKIP_insufficient_data }
  else
    let p := pick_probabilities.prod
    let potential_payout := parlay.stake * parlay.payout_multiplier
    let ev := p * potential_payout - (1 - p) * parlay.stake
    let quarter_kelly :=
      if parlay.payout_multiplier > 1 then
        ((p * parlay.payout_multiplier - 1) / (parlay.payout_multiplier - 1)) * (25/100)
      else 0
    { parlay with
      parlay_probability := some p
      expected_value := some ev
      roi := some (ev / parlay.stake * 100)
      recommendation :=
        some (if ev > 0 ∧ p > 5/100 then .BET quarter_kelly
          else if ev > 0 then .SKIP_low_probability
          else .SKIP_negative_ev) }

/-! ## paper_trading.py — PaperTradingManager state -/

/-- The `PaperTradingAccount` row: bankrolls and running counters. -/
structure PaperTradingAccount where
  starting_bankroll : ℚ
  current_bankroll : ℚ
  total_bets_placed : ℕ := 0
  total_bets_won : ℕ := 0
  total_bets_lost : ℕ := 0
  total_bets_void : ℕ := 0
deriving DecidableEq, Repr

/-- A `BankrollSnapshot` row (timestamp omitted). -/
structure BankrollSnapshot where
  bankroll : ℚ
  total_profit : ℚ
  total_bets : ℕ
  win_rate : ℚ
deriving DecidableEq, Repr

/-- Embedding of `PaperTradingManager._create_snapshot` applied to an account. -/
def create_snapshot (acct : PaperTradingAccount) : BankrollSnapshot :=
  { bankroll := acct.current_bankroll
    total_profit := acct.current_bankroll - acct.starting_bankroll
    total_bets := acct.total_bets_placed
    win_rate :=
      if acct.total_bets_won + acct.total_bets_lost > 0 then
        ((acct.total_bets_won : ℚ) / (acct.total_bets_won + acct.total_bets_lost)) * 100
      else 0 }

/-- A `SingleBet` row: the immutable placement snapshot plus the mutable
resolution outcome.  Database defaults: status 'pending', profit_loss 0.0,
actual_result NULL. -/
structure SingleBet where
  player_id : ℕ
  line : ℚ
  direction : Direction
  stake : ℚ
  odds : ℚ := -110
  potential_payout : ℚ
  prediction : ℚ
  probability : ℚ
  expected_value : ℚ
  confidence : ℚ
  std_dev : ℚ
  status : BetStatus := .pending
  actual_result : Option ℚ := none
  profit_loss : ℚ := 0
deriving DecidableEq, Repr

/-- A `ParlayLeg` row.  `id` is the database primary key the resolution map
`leg_results` is keyed by. -/
structure ParlayLeg where
  id : ℕ
  line : ℚ
  direction : Direction
  status : BetStatus := .pending
  actual_result : Option ℚ := none
deriving DecidableEq, Repr

/-- A `ParlayBet` row together with its legs. -/
structure ParlayBet where
  stake : ℚ
  payout_multiplier : ℚ
  potential_payout : ℚ
  legs : List ParlayLeg
  status : BetStatus := .pending
  profit_loss : ℚ := 0
deriving DecidableEq, Repr

/-- The persistent state a `PaperTradingManager` operates on: the account row,
the bet tables and the snapshot series.  Bet ids are positions in the lists. -/
structure TradingState where
  account : PaperTradingAccount
  singles : List SingleBet
  parlays : List ParlayBet
  snapshots : List BankrollSnapshot
deriving DecidableEq, Repr

/-- Fresh state as `_get_or_create_account` builds it: equal starting and
current bankroll, zero counters, an initial snapshot, no bets. -/
def initState (bankroll : ℚ) : TradingState :=
  let acct : PaperTradingAccount :=
    { starting_bankroll := bankroll, current_bankroll := bankroll }
  { account := acct, singles := [], parlays := [], snapshots := [create_snapshot acct] }

/-- Embedding of `PaperTradingManager.check_sufficient_funds` (the boolean
component): `stake > current_bankroll` fails, anything else passes. -/
def check_sufficient_funds (acct : PaperTradingAccount) (stake : ℚ) : Bool :=
  if stake > acct.current_bankroll then false else true

/-- Embedding of `PaperTradingManager.place_single_bet`.  The `player`
argument is the result of the database player lookup (`none` when the player
is not found).  Failure (insufficient funds or unknown player) returns `none`
with no state change; success returns the new bet's id and the updated state:
the bet row appended with potential payout `stake + stake*(100/110)` at -110
odds, the stake debited, the placed counter incremented, and a snapshot
appended. -/
def place_single_bet (s : TradingState) (player : Option ℕ) (line : ℚ)
    (direction : Direction) (stake prediction probability confidence std_dev : ℚ) :
    Option (ℕ × TradingState) :=
  if check_sufficient_funds s.account stake = false then none
  else
    match player with
    | none => none
    | some pid =>
      let bet : SingleBet :=
        { player_id := pid
          line := line
          direction := direction
          stake := stake
          potential_payout := stake + stake * (100/110)
          prediction := prediction
          probability := probability
          expected_value := probability * (stake * (100/110)) - (1 - probability) * stake
          confidence := confidence
          std_dev := std_dev }
      let acct : PaperTradingAccount :=
        { s.account with
          current_bankroll := s.account.current_bankroll - stake
          total_bets_placed := s.account.total_bets_placed + 1 }
      some (s.singles.length,
        { s with
          account := acct
          singles := s.singles ++ [bet]
          snapshots := s.snapshots ++ [create_snapshot acct] })

/-- Embedding of `PaperTradingManager.resolve_single_bet`.  Returns the new
state and the bet's profit/loss, or `none` (no change) when the bet id is
unknown or the bet is not pending.  Push (actual equals line) voids and
refunds the stake; a met win condition credits the stored potential payout
with profit `stake * (100/110)`; otherwise the bet is lost with profit/loss
`-stake`.  The matching counter is incremented and a snapshot appended. -/
def resolve_single_bet (s : TradingState) (bet_id : ℕ) (actual : ℚ) :
    Option (TradingState × ℚ) :=
  match s.singles.get? bet_id with
  | none => none
  | some bet =>
    if bet.status ≠ BetStatus.pending then none
    else if actual = bet.line then
      let bet1 := { bet with actual_result := some actual, status := BetStatus.void,
                             profit_loss := 0 }
      let acct := { s.account with
        current_bankroll := s.account.current_bankroll + bet.stake
        total_bets_void := s.account.total_bets_void + 1 }
      some ({ s with
              account := acct
              singles := s.singles.set bet_id bet1
              snapshots := s.snapshots ++ [create_snapshot acct] }, 0)
    else if winCond bet.direction actual bet.line then
      let profit := bet.stake * (100/110)
      let bet1 := { bet with actual_result := some actual, status := BetStatus.won,
                             profit_loss := profit }
      let acct := { s.account with
        current_bankroll := s.account.current_bankroll + bet.potential_payout
        total_bets_won := s.account.total_bets_won + 1 }
      some ({ s with
              account := acct
              singles := s.singles.set bet_id bet1
              snapshots := s.snapshots ++ [create_snapshot acct] }, profit)
    else
      let bet1 := { bet with actual_result := some actual, status := BetStatus.lost,
                             profit_loss := -bet.stake }
      let acct := { s.account with
        total_bets_lost := s.account.total_bets_lost + 1 }
      some ({ s with
              account := acct
              singles := s.singles.set bet_id bet1
              snapshots := s.snapshots ++ [create_snapshot acct] }, -bet.stake)

/-- Loop body of `resolve_parlay_bet`'s per-leg pass.  A leg whose id is
absent from `leg_results` is skipped (returned unchanged, contributing
nothing to either flag); a present leg is stamped with its actual value and
classified as void (push), won or lost.  The second component is this leg's
contribution to `all_won` (false only for a lost leg), the third its
contribution to `any_void`. -/
def resolve_leg (leg_results : List (ℕ × ℚ)) (leg : ParlayLeg) :
    ParlayLeg × Bool × Bool :=
  match leg_results.lookup leg.id with
  | none => (leg, true, false)
  | some actual =>
    if actual = leg.line then
      ({ leg with actual_result := some actual, status := BetStatus.void }, true, true)
    else if winCond leg.direction actual leg.line then
      ({ leg with actual_result := some actual, status := BetStatus.won }, true, false)
    else
      ({ leg with actual_result := some actual, status := BetStatus.lost }, false, false)

/-- The per-leg pass of `resolve_parlay_bet`: updated legs, the `all_won`
flag (initialized true) and the `any_void` flag (initialized false). -/
def resolve_legs (leg_results : List (ℕ × ℚ)) :
    List ParlayLeg → List ParlayLeg × Bool × Bool
  | [] => ([], true, false)
  | leg :: rest =>
    let r := resolve_leg leg_results leg
    let rr := resolve_legs leg_results rest
    (r.1 :: rr.1, r.2.1 && rr.2.1, r.2.2 || rr.2.2)

/-- Embedding of `PaperTradingManager.resolve_parlay_bet`.  `leg_results` is
the leg-id-keyed map of realized values (an association list).  Unknown id or
non-pending parlay returns `none`.  Otherwise: any void leg voids the whole
parlay and refunds the stake; else if no processed leg lost the parlay is won
and the full potential payout is credited; else it is lost. -/
def resolve_parlay_bet (s : TradingState) (parlay_id : ℕ)
    (leg_results : List (ℕ × ℚ)) : Option (TradingState × ℚ) :=
  match s.parlays.get? parlay_id with
  | none => none
  | some parlay =>
    if parlay.status ≠ BetStatus.pending then none
    else
      let r := resolve_legs leg_results parlay.legs
      if r.2.2 then
        let parlay1 := { parlay with legs := r.1, status := BetStatus.void,
                                     profit_loss := 0 }
        let acct := { s.account with
          current_bankroll := s.account.current_bankroll + parlay.stake
          total_bets_void := s.account.total_bets_void + 1 }
        some ({ s with
                account := acct
                parlays := s.parlays.set parlay_id parlay1
                snapshots := s.snapshots ++ [create_snapshot acct] }, 0)
      else if r.2.1 then
        let profit := parlay.potential_payout - parlay.stake
        let parlay1 := { parlay with legs := r.1, status := BetStatus.won,
                                     profit_loss := profit }
        let acct := { s.account with
          current_bankroll := s.account.current_bankroll + parlay.potential_payout
          total_bets_won := s.account.total_bets_won + 1 }
        some ({ s with
                account := acct
                parlays := s.parlays.set parlay_id parlay1
                snapshots := s.snapshots ++ [create_snapshot acct] }, profit)
      else
        let parlay1 := { parlay with legs := r.1, status := BetStatus.lost,
                                     profit_loss := -parlay.stake }
        let acct := { s.account with
          total_bets_lost := s.account.total_bets_lost + 1 }
        some ({ s with
                account := acct
                parlays := s.parlays.set parlay_id parlay1
                snapshots := s.snapshots ++ [create_snapshot acct] }, -parlay.stake)

/-- Embedding of `PaperTradingManager.void_bet` for `bet_type='single'`.
Unknown id or non-pending bet returns `none` (no change); otherwise the bet
is voided, its stake refunded, the void counter incremented and a snapshot
appended. -/
def void_bet (s : TradingState) (bet_id : ℕ) : Option TradingState :=
  match s.singles.get? bet_id with
  | none => none
  | some bet =>
    if bet.status ≠ BetStatus.pending then none
    else
      let bet1 := { bet with status := BetStatus.void, profit_loss := 0 }
      let acct := { s.account with
        current_bankroll := s.account.current_bankroll + bet.stake
        total_bets_void := s.account.total_bets_void + 1 }
      some { s with
             account := acct
             singles := s.singles.set bet_id bet1
             snapshots := s.snapshots ++ [create_snapshot acct] }

/-! ## Operation sequences on single bets -/

/-- One ledger operation on single bets: place, resolve or void. -/
inductive SingleOp
  | place (player : Option ℕ) (line : ℚ) (direction : Direction)
      (stake prediction probability confidence std_dev : ℚ)
  | resolve (bet_id : ℕ) (actual : ℚ)
  | void (bet_id : ℕ)

/-- Apply one operation; a failed call (the manager returns `None`/`False`
and rolls back) leaves the state unchanged. -/
def applyOp (s : TradingState) : SingleOp → TradingState
  | .place player line direction stake prediction probability confidence std_dev =>
    match place_single_bet s player line direction stake prediction probability
        confidence std_dev with
    | none => s
    | some r => r.2
  | .resolve bet_id actual =>
    match resolve_single_bet s bet_id actual with
    | none => s
    | some r => r.1
  | .void bet_id =>
    match void_bet s bet_id with
    | none => s
    | some s1 => s1

/-- Run a sequence of operations left to right. -/
def runOps (s : TradingState) : List SingleOp → TradingState
  | [] => s
  | op :: ops => runOps (applyOp s op) ops

/-- Sum of the stakes of the still-pending single bets. -/
def pendingStakes (bets : List SingleBet) : ℚ :=
  ((bets.filter (fun b => decide (b.status = BetStatus.pending))).map SingleBet.stake).sum

/-- Sum of profit/loss over the resolved (non-pending) single bets. -/
def resolvedProfitLoss (bets : List SingleBet) : ℚ :=
  ((bets.filter (fun b => decide (b.status ≠ BetStatus.pending))).map SingleBet.profit_loss).sum

/-- Net effect of one single bet on the bankroll relative to the starting
bankroll: a pending bet holds its stake, a resolved bet contributes its
profit/loss. -/
def netContribution (b : SingleBet) : ℚ :=
  if b.status = BetStatus.pending then -b.stake else b.profit_loss

/-- The bankroll accounting invariant: the current bankroll is the starting
bankroll plus the net contribution of every single bet. -/
def Balanced (s : TradingState) : Prop :=
  s.account.current_bankroll =
    s.account.starting_bankroll + (s.singles.map netContribution).sum

/-- Every pending single bet stores the potential payout `place_single_bet`
computed for it: `stake + stake * (100/110)` at -110 odds. -/
def PayoutConsistent (s : TradingState) : Prop :=
  ∀ b ∈ s.singles, b.status = BetStatus.pending →
    b.potential_payout = b.stake + b.stake * (100/110)

/-! ## Concrete fixtures used to instantiate the theorems -/

/-- A pending single bet: stake 110 on OVER 20 at -110 odds. -/
def exBet : SingleBet :=
  { player_id := 7, line := 20, direction := .OVER, stake := 110,
    potential_payout := 110 + 110 * (100/110), prediction := 25, probability := 3/5,
    expected_value := 0, confidence := 1, std_dev := 5 }

/-- A state holding the single pending bet `exBet`. -/
def exBetState : TradingState :=
  { account := { starting_bankroll := 1000, current_bankroll := 890, total_bets_placed := 1 }
    singles := [exBet]
    parlays := []
    snapshots := [] }

/-- The bet `exBet` after a winning resolution. -/
def exResolvedBet : SingleBet :=
  { exBet with status := .won, profit_loss := 100, actual_result := some 25 }

/-- A state holding the already-resolved bet `exResolvedBet`. -/
def exResolvedState : TradingState :=
  { exBetState with singles := [exResolvedBet] }

/-- A three-leg pending parlay: stake 100 at a 3x multiplier. -/
def exParlay : ParlayBet :=
  { stake := 100, payout_multiplier := 3, potential_payout := 300,
    legs := [ { id := 11, line := 20, direction := .OVER },
              { id := 12, line := 8, direction := .UNDER },
              { id := 13, line := 5, direction := .OVER } ] }

/-- A state holding the pending parlay `exParlay`. -/
def exParlayState : TradingState :=
  { account := { starting_bankroll := 1000, current_bankroll := 900, total_bets_placed := 1 }
    singles := []
    parlays := [exParlay]
    snapshots := [] }

/-- A fully evaluated two-pick parlay whose joint probability 0.3 gives a
positive expected value at a 3x multiplier but a negative Kelly fraction. -/
def kellyCexParlay : Parlay :=
  { picks := [ { line := 20, direction := .OVER, probability := some (1/2) },
               { line := 8, direction := .UNDER, probability := some (3/5) } ]
    payout_multiplier := 3
    stake := 1 }

/-- A fully evaluated two-pick parlay with joint probability 0.64, giving a
positive Kelly fraction at a 3x multiplier. -/
def kellyExParlay : Parlay :=
  { picks := [ { line := 20, direction := .OVER, probability := some (4/5) },
               { line := 8, direction := .UNDER, probability := some (4/5) } ]
    payout_multiplier := 3
    stake := 1 }

/-- A pick whose player had no historical data: prediction and probability
were never filled in. -/
def noDataPick : Pick :=
  { line := 8, direction := .UNDER }

/-- A two-pick parlay whose second pick could not be evaluated. -/
def insufParlay : Parlay :=
  { picks := [ { line := 20, direction := .OVER, probability := some (1/2) },
               noDataPick ]
    payout_multiplier := 3
    stake := 1 }

/-! ## Lemmas about list arithmetic -/

theorem sum_zipWith_mul_replicate (c : ℚ) (vs : List ℚ) :
    (List.zipWith (fun v w => v * w) vs (List.replicate vs.length c)).sum = vs.sum * c := by
  induction vs with
  | nil => simp
  | cons v t ih =>
    simp only [List.length_cons, List.replicate_succ, List.zipWith_cons_cons,
      List.sum_cons, ih]
    ring

theorem map_pow_one_range (n : ℕ) :
    (List.range n).map (fun i => (1 : ℚ) ^ i) = List.replicate n 1 := by
  induction n with
  | zero => simp
  | succ m ih =>
    simp [List.range_succ, ih, List.replicate_succ']

/-- C7: for a non-empty stat sequence, the weighted-average prediction with
decay factor 1.0 (equal weights, explicitly normalized) equals the arithmetic
mean computed by the simple-average estimator. -/
theorem predict_weighted_average_decay_one (vs : List ℚ) (h : vs ≠ []) :
    predict_weighted_average vs 1 = predict_simple_average vs := by
  have hn : vs.length ≠ 0 := fun hc => h (List.length_eq_zero.mp hc)
  have hq : (vs.length : ℚ) ≠ 0 := Nat.cast_ne_zero.mpr hn
  unfold predict_weighted_average predict_simple_average
  rw [if_neg hn, if_neg hn, map_pow_one_range]
  have hsum : (List.replicate vs.length (1 : ℚ)).sum = (vs.length : ℚ) := by
    simp [List.sum_replicate]
  dsimp only
  rw [hsum, List.map_replicate, sum_zipWith_mul_replicate]
  rw [one_div, ← div_eq_mul_inv]

/-- C7 witness: the instantiation at the stat sequence [20, 25, 30]. -/
theorem predict_weighted_average_decay_one_witness :
    ([(20 : ℚ), 25, 30] ≠ []) ∧
      predict_weighted_average [(20 : ℚ), 25, 30] 1 =
        predict_simple_average [(20 : ℚ), 25, 30] :=
  ⟨by simp, predict_weighted_average_decay_one [(20 : ℚ), 25, 30] (by simp)⟩

/-- C6: whenever `evaluate_against_line` is given a prediction and a positive
standard deviation, its result has `prob_over = 1 - CDF(line)`,
`prob_under = CDF(line)`, and the two probabilities sum to exactly 1. -/
theorem evaluate_against_line_probs_sum_one (normCdf : ℚ → ℚ → ℚ → ℚ)
    (pred sd line : ℚ) (hsd : 0 < sd) :
    ∃ r : EvalResult,
      evaluate_against_line normCdf (some pred) (some sd) line = some r ∧
      r.prob_over = 1 - normCdf line pred sd ∧
      r.prob_under = normCdf line pred sd ∧
      r.prob_over + r.prob_under = 1 := by
  refine ⟨_, rfl, rfl, rfl, ?_⟩
  show (1 - normCdf line pred sd) + normCdf line pred sd = 1
  ring

/-- C6 witness: the instantiation at a constant CDF 1/2, prediction 25,
standard deviation 5 and line 20. -/
theorem evaluate_against_line_probs_sum_one_witness :
    (0 : ℚ) < 5 ∧
    ∃ r : EvalResult,
      evaluate_against_line (fun _ _ _ => 1/2) (some 25) (some 5) 20 = some r ∧
      r.prob_over = 1 - (fun _ _ _ => (1/2 : ℚ)) (20 : ℚ) (25 : ℚ) (5 : ℚ) ∧
      r.prob_under = (fun _ _ _ => (1/2 : ℚ)) (20 : ℚ) (25 : ℚ) (5 : ℚ) ∧
      r.prob_over + r.prob_under = 1 :=
  ⟨by norm_num,
    evaluate_against_line_probs_sum_one (fun _ _ _ => 1/2) 25 5 20 (by norm_num)⟩

/-! ## Parlay analysis -/

theorem filterMap_probability_length_eq (l : List Pick)
    (h : ∀ p ∈ l, (Pick.probability p).isSome) :
    (l.filterMap Pick.probability).length = l.length := by
  induction l with
  | nil => simp
  | cons p t ih =>
    have hp := h p (List.mem_cons_self p t)
    cases hpp : p.probability with
    | none => rw [hpp] at hp; simp at hp
    | some v =>
      rw [List.filterMap_cons, hpp]
      simp [ih fun x hx => h x (List.mem_cons_of_mem p hx)]

theorem length_filterMap_probability_lt (l : List Pick) (pick : Pick)
    (hm : pick ∈ l) (hn : Pick.probability pick = none) :
    (l.filterMap Pick.probability).length < l.length := by
  induction l with
  | nil => cases hm
  | cons p t ih =>
    rcases List.mem_cons.mp hm with h | h
    · subst h
      rw [List.filterMap_cons, hn]
      exact Nat.lt_succ_of_le (List.length_filterMap_le Pick.probability t)
    · cases hpp : p.probability with
      | none =>
        rw [List.filterMap_cons, hpp]
        exact Nat.lt_succ_of_lt (ih h)
      | some v =>
        rw [List.filterMap_cons, hpp]
        simpa using Nat.succ_lt_succ (ih h)

/-- C2 (amended): for a parlay whose picks all carry a probability, a `BET`
recommendation annotates exactly `kelly_fraction * 0.25` where
`kelly_fraction = (p*b - 1)/(b - 1)` for `b > 1` (and 0 for `b ≤ 1`) —
the fraction is not clamped at 0. -/
theorem analyze_parlay_quarter_kelly (parlay : Parlay)
    (hall : ∀ p ∈ parlay.picks, (Pick.probability p).isSome) :
    ∀ q, (analyze_parlay parlay).recommendation = some (ParlayCall.BET q) →
      q = if parlay.payout_multiplier > 1 then
        ((picksProbability parlay * parlay.payout_multiplier - 1) /
          (parlay.payout_multiplier - 1)) * (25/100)
      else 0 := by
  intro q hq
  unfold analyze_parlay at hq
  rw [if_neg (by simp [filterMap_probability_length_eq parlay.picks hall])] at hq
  dsimp only at hq
  split at hq
  · rw [Option.some_inj] at hq
    cases hq
    rfl
  · split at hq <;> exact absurd hq (by simp)

/-- C2 counterexample: a fully evaluated parlay (joint probability 0.3,
multiplier 3) whose recommendation is `BET` annotated with quarter-Kelly
fraction -1/80, which is negative and differs from
`max(0, kelly_fraction * 0.25) = 0`. -/
theorem analyze_parlay_negative_quarter_kelly_cex :
    (∀ p ∈ kellyCexParlay.picks, (Pick.probability p).isSome) ∧
    (analyze_parlay kellyCexParlay).recommendation = some (ParlayCall.BET (-1/80)) ∧
    (-1/80 : ℚ) < 0 ∧
    (-1/80 : ℚ) ≠ max 0 ((((3/10) * 3 - 1) / (3 - 1)) * (25/100)) := by
  refine ⟨by simp [kellyCexParlay, List.forall_mem_cons], ?_, by norm_num, ?_⟩
  · norm_num [analyze_parlay, kellyCexParlay, picksProbability, List.filterMap_cons,
      List.prod_cons, List.prod_nil]
  · have h : ((((3 : ℚ)/10) * 3 - 1) / (3 - 1) * (25/100)) = -1/80 := by norm_num
    rw [h, max_eq_left (by norm_num : (-1/80 : ℚ) ≤ 0)]
    norm_num

/-- C2 witness: the amended statement instantiated at a fully evaluated
parlay with joint probability 0.64 and multiplier 3, annotated 23/200. -/
theorem analyze_parlay_quarter_kelly_witness :
    (∀ p ∈ kellyExParlay.picks, (Pick.probability p).isSome) ∧
    ((analyze_parlay kellyExParlay).recommendation = some (ParlayCall.BET (23/200)) →
      (23/200 : ℚ) = if kellyExParlay.payout_multiplier > 1 then
        ((picksProbability kellyExParlay * kellyExParlay.payout_multiplier - 1) /
          (kellyExParlay.payout_multiplier - 1)) * (25/100)
      else 0) ∧
    (analyze_parlay kellyExParlay).recommendation = some (ParlayCall.BET (23/200)) :=
  ⟨by simp [kellyExParlay, List.forall_mem_cons],
    analyze_parlay_quarter_kelly kellyExParlay
      (by simp [kellyExParlay, List.forall_mem_cons]) (23/200),
    by norm_num [analyze_parlay, kellyExParlay, picksProbability, List.filterMap_cons,
      List.prod_cons, List.prod_nil]⟩

/-- C8: a parlay containing a pick with no probability (no historical data)
is not scored: the recommendation becomes the insufficient-data skip and the
parlay probability, expected value and ROI are left untouched (unset). -/
theorem analyze_parlay_insufficient_data (parlay : Parlay) (pick : Pick)
    (hm : pick ∈ parlay.picks) (hn : Pick.probability pick = none) :
    (analyze_parlay parlay).recommendation = some ParlayCall.SKIP_insufficient_data ∧
    (analyze_parlay parlay).parlay_probability = parlay.parlay_probability ∧
    (analyze_parlay parlay).expected_value = parlay.expected_value ∧
    (analyze_parlay parlay).roi = parlay.roi ∧
    (analyze_parlay parlay).picks = parlay.picks := by
  have hne : (parlay.picks.filterMap Pick.probability).length ≠ parlay.picks.length :=
    Nat.ne_of_lt (length_filterMap_probability_lt parlay.picks pick hm hn)
  unfold analyze_parlay
  rw [if_pos hne]
  exact ⟨rfl, rfl, rfl, rfl, rfl⟩

/-- C8 witness: the instantiation at a two-pick parlay whose second pick has
no probability. -/
theorem analyze_parlay_insufficient_data_witness :
    (noDataPick ∈ insufParlay.picks ∧ Pick.probability noDataPick = none) ∧
    ((analyze_parlay insufParlay).recommendation =
        some ParlayCall.SKIP_insufficient_data ∧
      (analyze_parlay insufParlay).parlay_probability = insufParlay.parlay_probability ∧
      (analyze_parlay insufParlay).expected_value = insufParlay.expected_value ∧
      (analyze_parlay insufParlay).roi = insufParlay.roi ∧
      (analyze_parlay insufParlay).picks = insufParlay.picks) :=
  ⟨⟨by simp [insufParlay], rfl⟩,
    analyze_parlay_insufficient_data insufParlay noDataPick (by simp [insufParlay]) rfl⟩

/-! ## Single-bet lifecycle -/

/-- C1: resolving a pending single bet: a push (actual equals the line) voids
the bet, refunds the stake and increments the void counter with zero
profit/loss; a met win condition wins the bet, credits the stored potential
payout and increments the won counter with profit `stake * (100/110)`;
anything else loses the bet, credits nothing and increments the lost counter
with profit/loss `-stake`. -/
theorem resolve_single_bet_pending_cases (s : TradingState) (i : ℕ) (bet : SingleBet)
    (actual : ℚ) (hget : s.singles.get? i = some bet)
    (hp : bet.status = BetStatus.pending) :
    (actual = bet.line →
      ∃ s' : TradingState,
        resolve_single_bet s i actual = some (s', 0) ∧
        s'.singles.get? i = some { bet with
          actual_result := some actual
          status := BetStatus.void
          profit_loss := 0 } ∧
        s'.account.current_bankroll = s.account.current_bankroll + bet.stake ∧
        s'.account.total_bets_void = s.account.total_bets_void + 1) ∧
    (actual ≠ bet.line → winCond bet.direction actual bet.line →
      ∃ s' : TradingState,
        resolve_single_bet s i actual = some (s', bet.stake * (100/110)) ∧
        s'.singles.get? i = some { bet with
          actual_result := some actual
          status := BetStatus.won
          profit_loss := bet.stake * (100/110) } ∧
        s'.account.current_bankroll =
          s.account.current_bankroll + bet.potential_payout ∧
        s'.account.total_bets_won = s.account.total_bets_won + 1) ∧
    (actual ≠ bet.line → ¬ winCond bet.direction actual bet.line →
      ∃ s' : TradingState,
        resolve_single_bet s i actual = some (s', -bet.stake) ∧
        s'.singles.get? i = some { bet with
          actual_result := some actual
          status := BetStatus.lost
          profit_loss := -bet.stake } ∧
        s'.account.current_bankroll = s.account.current_bankroll ∧
        s'.account.total_bets_lost = s.account.total_bets_lost + 1) := by
  obtain ⟨hlt, -⟩ := List.get?_eq_some.mp hget
  have hset : ∀ b1 : SingleBet, (s.singles.set i b1).get? i = some b1 :=
    fun b1 => List.get?_set_eq_of_lt b1 hlt
  unfold resolve_single_bet
  rw [hget]
  dsimp only
  rw [if_neg (not_not_intro hp)]
  refine ⟨?_, ?_, ?_⟩
  · intro hpush
    rw [if_pos hpush]
    exact ⟨_, rfl, hset _, rfl, rfl⟩
  · intro hne hwin
    rw [if_neg hne, if_pos hwin]
    exact ⟨_, rfl, hset _, rfl, rfl⟩
  · intro hne hnw
    rw [if_neg hne, if_neg hnw]
    exact ⟨_, rfl, hset _, rfl, rfl⟩

/-- C1 witness: the won case instantiated at `exBet` (OVER 20, stake 110)
resolved with an actual value of 25. -/
theorem resolve_single_bet_pending_cases_witness :
    (exBetState.singles.get? 0 = some exBet ∧ exBet.status = BetStatus.pending ∧
      (25 : ℚ) ≠ exBet.line ∧ winCond exBet.direction 25 exBet.line) ∧
    (∃ s' : TradingState,
      resolve_single_bet exBetState 0 25 = some (s', exBet.stake * (100/110)) ∧
      s'.singles.get? 0 = some { exBet with
        actual_result := some 25
        status := BetStatus.won
        profit_loss := exBet.stake * (100/110) } ∧
      s'.account.current_bankroll =
        exBetState.account.current_bankroll + exBet.potential_payout ∧
      s'.account.total_bets_won = exBetState.account.total_bets_won + 1) :=
  ⟨⟨rfl, rfl, by norm_num [exBet], by norm_num [exBet, winCond]⟩,
    (resolve_single_bet_pending_cases exBetState 0 exBet 25 rfl rfl).2.1
      (by norm_num [exBet]) (by norm_num [exBet, winCond])⟩

/-- C5: resolving or voiding a bet that is not pending fails and performs no
mutation at all: the call returns `none` and the state (bankroll, counters,
and every stored bet field) is untouched. -/
theorem resolve_non_pending_rejected (s : TradingState) (i : ℕ) (bet : SingleBet)
    (actual : ℚ) (hget : s.singles.get? i = some bet)
    (hnp : bet.status ≠ BetStatus.pending) :
    resolve_single_bet s i actual = none ∧ void_bet s i = none ∧
    applyOp s (SingleOp.resolve i actual) = s ∧ applyOp s (SingleOp.void i) = s := by
  have h1 : resolve_single_bet s i actual = none := by
    unfold resolve_single_bet
    rw [hget]
    dsimp only
    rw [if_pos hnp]
  have h2 : void_bet s i = none := by
    unfold void_bet
    rw [hget]
    dsimp only
    rw [if_pos hnp]
  refine ⟨h1, h2, ?_, ?_⟩
  · simp only [applyOp, h1]
  · simp only [applyOp, h2]

/-- C5 witness: the instantiation at the already-won bet `exResolvedBet`. -/
theorem resolve_non_pending_rejected_witness :
    (exResolvedState.singles.get? 0 = some exResolvedBet ∧
      exResolvedBet.status ≠ BetStatus.pending) ∧
    (resolve_single_bet exResolvedState 0 25 = none ∧
      void_bet exResolvedState 0 = none ∧
      applyOp exResolvedState (SingleOp.resolve 0 25) = exResolvedState ∧
      applyOp exResolvedState (SingleOp.void 0) = exResolvedState) :=
  ⟨⟨rfl, by simp [exResolvedBet]⟩,
    resolve_non_pending_rejected exResolvedState 0 exResolvedBet 25 rfl
      (by simp [exResolvedBet])⟩

/-- C3 (amended): placement is rejected with no state change when the stake
exceeds the bankroll, and also — with sufficient funds — when the player
lookup fails; when the stake is within the bankroll and the player is found,
placement succeeds with the new bet's id, debits the stake, increments the
placed counter, appends the bet row and appends a snapshot. -/
theorem place_single_bet_spec (s : TradingState) (player : Option ℕ) (line : ℚ)
    (d : Direction) (stake prediction probability confidence std_dev : ℚ) :
    (stake > s.account.current_bankroll →
      place_single_bet s player line d stake prediction probability confidence std_dev
          = none ∧
      applyOp s (SingleOp.place player line d stake prediction probability confidence
        std_dev) = s) ∧
    (player = none →
      place_single_bet s player line d stake prediction probability confidence std_dev
          = none ∧
      applyOp s (SingleOp.place player line d stake prediction probability confidence
        std_dev) = s) ∧
    (∀ pid : ℕ, stake ≤ s.account.current_bankroll → player = some pid →
      ∃ s' : TradingState,
        place_single_bet s player line d stake prediction probability confidence std_dev
            = some (s.singles.length, s') ∧
        s'.account.current_bankroll = s.account.current_bankroll - stake ∧
        s'.account.total_bets_placed = s.account.total_bets_placed + 1 ∧
        s'.singles.length = s.singles.length + 1 ∧
        s'.snapshots = s.snapshots ++ [create_snapshot s'.account]) := by
  refine ⟨?_, ?_, ?_⟩
  · intro hover
    have hc : check_sufficient_funds s.account stake = false := by
      unfold check_sufficient_funds
      rw [if_pos hover]
    have h1 : place_single_bet s player line d stake prediction probability confidence
        std_dev = none := by
      unfold place_single_bet
      rw [if_pos hc]
    refine ⟨h1, ?_⟩
    unfold applyOp
    dsimp only
    rw [h1]
  · intro hnone
    subst hnone
    have h1 : place_single_bet s none line d stake prediction probability confidence
        std_dev = none := by
      unfold place_single_bet
      by_cases hc : check_sufficient_funds s.account stake = false
      · rw [if_pos hc]
      · rw [if_neg hc]
    refine ⟨h1, ?_⟩
    unfold applyOp
    dsimp only
    rw [h1]
  · intro pid hle hsome
    subst hsome
    have hc : ¬ (check_sufficient_funds s.account stake = false) := by
      unfold check_sufficient_funds
      rw [if_neg (not_lt.mpr hle)]
      simp
    unfold place_single_bet
    rw [if_neg hc]
    exact ⟨_, rfl, rfl, rfl, by simp, rfl⟩

/-- C3 counterexample: with bankroll 1000 and stake 10 the funds check
passes, yet placement still fails because the player lookup returns nothing —
so insufficient funds is not the only placement failure mode. -/
theorem place_single_bet_not_only_funds_cex :
    (10 : ℚ) ≤ (initState 1000).account.current_bankroll ∧
    place_single_bet (initState 1000) none 20 Direction.OVER 10 25 (1/2) 1 5 = none := by
  constructor
  · norm_num [initState]
  · unfold place_single_bet
    by_cases hc : check_sufficient_funds (initState 1000).account 10 = false
    · rw [if_pos hc]
    · rw [if_neg hc]

/-- C3 witness: the success case of the amended statement instantiated at a
fresh 1000 bankroll, a found player and a stake of 10. -/
theorem place_single_bet_spec_witness :
    ((10 : ℚ) ≤ (initState 1000).account.current_bankroll) ∧
    (∃ s' : TradingState,
      place_single_bet (initState 1000) (some 7) 20 Direction.OVER 10 25 (1/2) 1 5
          = some ((initState 1000).singles.length, s') ∧
      s'.account.current_bankroll = (initState 1000).account.current_bankroll - 10 ∧
      s'.account.total_bets_placed = (initState 1000).account.total_bets_placed + 1 ∧
      s'.singles.length = (initState 1000).singles.length + 1 ∧
      s'.snapshots = (initState 1000).snapshots ++ [create_snapshot s'.account]) :=
  ⟨by norm_num [initState],
    (place_single_bet_spec (initState 1000) (some 7) 20 Direction.OVER 10 25 (1/2)
        1 5).2.2 7 (by norm_num [initState]) rfl⟩

/-! ## Bankroll conservation -/

theorem sum_map_set {α : Type} (f : α → ℚ) (l : List α) :
    ∀ (i : ℕ) (b b' : α), l.get? i = some b →
      ((l.set i b').map f).sum = (l.map f).sum - f b + f b' := by
  induction l with
  | nil =>
    intro i b b' h
    simp at h
  | cons a t ih =>
    intro i b b' h
    cases i with
    | zero =>
      rw [List.get?_cons_zero] at h
      injection h with h
      subst h
      simp only [List.set_cons_zero, List.map_cons, List.sum_cons]
      ring
    | succ n =>
      rw [List.get?_cons_succ] at h
      simp only [List.set_cons_succ, List.map_cons, List.sum_cons, ih n b b' h]
      ring

theorem net_split (l : List SingleBet) :
    (l.map netContribution).sum = resolvedProfitLoss l - pendingStakes l := by
  induction l with
  | nil => simp [pendingStakes, resolvedProfitLoss]
  | cons b t ih =>
    by_cases hb : b.status = BetStatus.pending
    · simp [pendingStakes, resolvedProfitLoss, List.filter_cons, hb, netContribution]
        at ih ⊢
      linarith
    · simp [pendingStakes, resolvedProfitLoss, List.filter_cons, hb, netContribution]
        at ih ⊢
      linarith

theorem initState_balanced (b : ℚ) : Balanced (initState b) := by
  unfold Balanced initState
  simp

theorem initState_payoutConsistent (b : ℚ) : PayoutConsistent (initState b) := by
  intro x hx
  simp [initState] at hx

theorem applyOp_preserves (s : TradingState) (op : SingleOp)
    (hB : Balanced s) (hP : PayoutConsistent s) :
    Balanced (applyOp s op) ∧ PayoutConsistent (applyOp s op) := by
  cases op with
  | place player line d stake prediction probability confidence std_dev =>
    simp only [applyOp, place_single_bet]
    by_cases hc : check_sufficient_funds s.account stake = false
    · rw [if_pos hc]
      exact ⟨hB, hP⟩
    · rw [if_neg hc]
      cases player with
      | none => exact ⟨hB, hP⟩
      | some pid =>
        refine ⟨?_, ?_⟩
        · unfold Balanced at hB ⊢
          dsimp only
          rw [List.map_append, List.sum_append]
          simp [netContribution]
          linarith
        · intro b hb hbp
          dsimp only at hb
          rcases List.mem_append.mp hb with h | h
          · exact hP b h hbp
          · rcases List.mem_singleton.mp h with rfl
            rfl
  | resolve bet_id actual =>
    simp only [applyOp, resolve_single_bet]
    cases hget : s.singles.get? bet_id with
    | none => exact ⟨hB, hP⟩
    | some bet =>
      dsimp only
      by_cases hst : bet.status ≠ BetStatus.pending
      · rw [if_pos hst]
        exact ⟨hB, hP⟩
      · rw [if_neg hst]
        push_neg at hst
        have hmem : bet ∈ s.singles := List.get?_mem hget
        have hnet : netContribution bet = -bet.stake := by
          unfold netContribution
          rw [if_pos hst]
        by_cases hpush : actual = bet.line
        · rw [if_pos hpush]
          refine ⟨?_, ?_⟩
          · unfold Balanced at hB ⊢
            dsimp only
            rw [sum_map_set netContribution s.singles bet_id bet _ hget, hnet]
            simp [netContribution]
            linarith
          · intro b hb hbp
            dsimp only at hb
            rcases List.mem_or_eq_of_mem_set hb with h | rfl
            · exact hP b h hbp
            · simp at hbp
        · rw [if_neg hpush]
          by_cases hwin : winCond bet.direction actual bet.line
          · rw [if_pos hwin]
            have hpay := hP bet hmem hst
            refine ⟨?_, ?_⟩
            · unfold Balanced at hB ⊢
              dsimp only
              rw [sum_map_set netContribution s.singles bet_id bet _ hget, hnet]
              simp [netContribution]
              linarith [hpay]
            · intro b hb hbp
              dsimp only at hb
              rcases List.mem_or_eq_of_mem_set hb with h | rfl
              · exact hP b h hbp
              · simp at hbp
          · rw [if_neg hwin]
            refine ⟨?_, ?_⟩
            · unfold Balanced at hB ⊢
              dsimp only
              rw [sum_map_set netContribution s.singles bet_id bet _ hget, hnet]
              simp [netContribution]
              linarith
            · intro b hb hbp
              dsimp only at hb
              rcases List.mem_or_eq_of_mem_set hb with h | rfl
              · exact hP b h hbp
              · simp at hbp
  | void bet_id =>
    simp only [applyOp, void_bet]
    cases hget : s.singles.get? bet_id with
    | none => exact ⟨hB, hP⟩
    | some bet =>
      dsimp only
      by_cases hst : bet.status ≠ BetStatus.pending
      · rw [if_pos hst]
        exact ⟨hB, hP⟩
      · rw [if_neg hst]
        push_neg at hst
        have hnet : netContribution bet = -bet.stake := by
          unfold netContribution
          rw [if_pos hst]
        refine ⟨?_, ?_⟩
        · unfold Balanced at hB ⊢
          dsimp only
          rw [sum_map_set netContribution s.singles bet_id bet _ hget, hnet]
          simp [netContribution]
          linarith
        · intro b hb hbp
          dsimp only at hb
          rcases List.mem_or_eq_of_mem_set hb with h | rfl
          · exact hP b h hbp
          · simp at hbp

theorem runOps_preserves (ops : List SingleOp) (s : TradingState)
    (hB : Balanced s) (hP : PayoutConsistent s) :
    Balanced (runOps s ops) ∧ PayoutConsistent (runOps s ops) := by
  induction ops generalizing s with
  | nil => exact ⟨hB, hP⟩
  | cons op ops ih =>
    have h := applyOp_preserves s op hB hP
    exact ih (applyOp s op) h.1 h.2

/-- C9: starting from a fresh account, after any sequence of place, resolve
and void operations on single bets the current bankroll equals the starting
bankroll minus the stakes of the still-pending bets plus the profit/loss of
the resolved bets. -/
theorem bankroll_conservation (bankroll : ℚ) (ops : List SingleOp) :
    (runOps (initState bankroll) ops).account.current_bankroll =
      (runOps (initState bankroll) ops).account.starting_bankroll
        - pendingStakes (runOps (initState bankroll) ops).singles
        + resolvedProfitLoss (runOps (initState bankroll) ops).singles := by
  have h := runOps_preserves ops (initState bankroll) (initState_balanced bankroll)
    (initState_payoutConsistent bankroll)
  have hB := h.1
  unfold Balanced at hB
  rw [hB, net_split]
  ring

/-! ## Parlay resolution -/

theorem resolve_leg_void_iff (rs : List (ℕ × ℚ)) (leg : ParlayLeg) :
    (resolve_leg rs leg).2.2 = true ↔ rs.lookup leg.id = some leg.line := by
  unfold resolve_leg
  cases h : rs.lookup leg.id with
  | none => simp
  | some a =>
    dsimp only
    by_cases ha : a = leg.line
    · subst ha
      simp
    · rw [if_neg ha]
      by_cases hw : winCond leg.direction a leg.line
      · rw [if_pos hw]
        simp [ha]
      · rw [if_neg hw]
        simp [ha]

theorem resolve_leg_won_iff (rs : List (ℕ × ℚ)) (leg : ParlayLeg) :
    (resolve_leg rs leg).2.1 = true ↔
      ∀ a, rs.lookup leg.id = some a →
        a = leg.line ∨ winCond leg.direction a leg.line := by
  unfold resolve_leg
  cases h : rs.lookup leg.id with
  | none => simp
  | some a =>
    dsimp only
    by_cases ha : a = leg.line
    · subst ha
      simp
    · rw [if_neg ha]
      by_cases hw : winCond leg.direction a leg.line
      · rw [if_pos hw]
        simp [ha, hw]
      · rw [if_neg hw]
        simp [ha, hw]

theorem resolve_leg_skip (rs : List (ℕ × ℚ)) (leg : ParlayLeg)
    (h : rs.lookup leg.id = none) : resolve_leg rs leg = (leg, true, false) := by
  unfold resolve_leg
  rw [h]

theorem resolve_legs_any_void_iff (rs : List (ℕ × ℚ)) (legs : List ParlayLeg) :
    (resolve_legs rs legs).2.2 = true ↔
      ∃ leg ∈ legs, rs.lookup leg.id = some leg.line := by
  induction legs with
  | nil => simp [resolve_legs]
  | cons leg rest ih =>
    simp [resolve_legs, Bool.or_eq_true, ih, resolve_leg_void_iff]

theorem resolve_legs_all_won_iff (rs : List (ℕ × ℚ)) (legs : List ParlayLeg) :
    (resolve_legs rs legs).2.1 = true ↔
      ∀ leg ∈ legs, ∀ a, rs.lookup leg.id = some a →
        a = leg.line ∨ winCond leg.direction a leg.line := by
  induction legs with
  | nil => simp [resolve_legs]
  | cons leg rest ih =>
    simp [resolve_legs, Bool.and_eq_true, ih, resolve_leg_won_iff]

theorem resolve_legs_skip_get? (rs : List (ℕ × ℚ)) (legs : List ParlayLeg) :
    ∀ (j : ℕ) (leg : ParlayLeg), legs.get? j = some leg →
      rs.lookup leg.id = none → (resolve_legs rs legs).1.get? j = some leg := by
  induction legs with
  | nil =>
    intro j leg h _
    simp at h
  | cons l rest ih =>
    intro j leg h hn
    simp only [resolve_legs]
    cases j with
    | zero =>
      rw [List.get?_cons_zero] at h
      injection h with h
      subst h
      rw [List.get?_cons_zero, resolve_leg_skip rs l hn]
    | succ n =>
      rw [List.get?_cons_succ] at h
      rw [List.get?_cons_succ]
      exact ih n leg h hn

/-- C4: resolving a pending parlay in which every leg has a realized value:
a push on any leg voids the entire parlay and refunds the stake, regardless
of the other legs; if no leg pushes and every leg wins, the parlay is won and
the full potential payout credited; if no leg pushes and some leg loses, the
parlay is lost with profit/loss `-stake`. -/
theorem resolve_parlay_bet_cases (s : TradingState) (i : ℕ) (parlay : ParlayBet)
    (rs : List (ℕ × ℚ)) (hget : s.parlays.get? i = some parlay)
    (hp : parlay.status = BetStatus.pending)
    (hall : ∀ leg ∈ parlay.legs, (rs.lookup leg.id).isSome) :
    ((∃ leg ∈ parlay.legs, rs.lookup leg.id = some leg.line) →
      ∃ s' : TradingState,
        resolve_parlay_bet s i rs = some (s', 0) ∧
        (∃ parlay1 : ParlayBet, s'.parlays.get? i = some parlay1 ∧
          parlay1.status = BetStatus.void ∧ parlay1.profit_loss = 0) ∧
        s'.account.current_bankroll = s.account.current_bankroll + parlay.stake ∧
        s'.account.total_bets_void = s.account.total_bets_void + 1) ∧
    ((∀ leg ∈ parlay.legs, ∀ a, rs.lookup leg.id = some a →
        a ≠ leg.line ∧ winCond leg.direction a leg.line) →
      ∃ s' : TradingState,
        resolve_parlay_bet s i rs
            = some (s', parlay.potential_payout - parlay.stake) ∧
        (∃ parlay1 : ParlayBet, s'.parlays.get? i = some parlay1 ∧
          parlay1.status = BetStatus.won ∧
          parlay1.profit_loss = parlay.potential_payout - parlay.stake) ∧
        s'.account.current_bankroll =
          s.account.current_bankroll + parlay.potential_payout ∧
        s'.account.total_bets_won = s.account.total_bets_won + 1) ∧
    ((∀ leg ∈ parlay.legs, ∀ a, rs.lookup leg.id = some a → a ≠ leg.line) →
      (∃ leg ∈ parlay.legs, ∃ a, rs.lookup leg.id = some a ∧
        ¬ winCond leg.direction a leg.line) →
      ∃ s' : TradingState,
        resolve_parlay_bet s i rs = some (s', -parlay.stake) ∧
        (∃ parlay1 : ParlayBet, s'.parlays.get? i = some parlay1 ∧
          parlay1.status = BetStatus.lost ∧ parlay1.profit_loss = -parlay.stake) ∧
        s'.account.current_bankroll = s.account.current_bankroll ∧
        s'.account.total_bets_lost = s.account.total_bets_lost + 1) := by
  obtain ⟨hlt, -⟩ := List.get?_eq_some.mp hget
  have hset : ∀ p1 : ParlayBet, (s.parlays.set i p1).get? i = some p1 :=
    fun p1 => List.get?_set_eq_of_lt p1 hlt
  unfold resolve_parlay_bet
  rw [hget]
  dsimp only
  rw [if_neg (not_not_intro hp)]
  refine ⟨?_, ?_, ?_⟩
  · intro hpush
    have hv : (resolve_legs rs parlay.legs).2.2 = true :=
      (resolve_legs_any_void_iff rs parlay.legs).mpr hpush
    rw [if_pos hv]
    exact ⟨_, rfl, ⟨_, hset _, rfl, rfl⟩, rfl, rfl⟩
  · intro hwin
    have hv : ¬ ((resolve_legs rs parlay.legs).2.2 = true) := by
      rw [resolve_legs_any_void_iff]
      rintro ⟨leg, hmem, hlk⟩
      exact (hwin leg hmem leg.line hlk).1 rfl
    have hw : (resolve_legs rs parlay.legs).2.1 = true := by
      rw [resolve_legs_all_won_iff]
      intro leg hmem a ha
      exact Or.inr (hwin leg hmem a ha).2
    rw [if_neg hv, if_pos hw]
    exact ⟨_, rfl, ⟨_, hset _, rfl, rfl⟩, rfl, rfl⟩
  · intro hnopush hlose
    have hv : ¬ ((resolve_legs rs parlay.legs).2.2 = true) := by
      rw [resolve_legs_any_void_iff]
      rintro ⟨leg, hmem, hlk⟩
      exact hnopush leg hmem leg.line hlk rfl
    have hw : ¬ ((resolve_legs rs parlay.legs).2.1 = true) := by
      rw [resolve_legs_all_won_iff]
      intro hcon
      obtain ⟨leg, hmem, a, ha, hnw⟩ := hlose
      rcases hcon leg hmem a ha with h | h
      · exact hnopush leg hmem a ha h
      · exact hnw h
    rw [if_neg hv, if_neg hw]
    exact ⟨_, rfl, ⟨_, hset _, rfl, rfl⟩, rfl, rfl⟩

/-- C4 witness: the push case instantiated at the three-leg parlay
`exParlay` where leg 12 pushes (actual 8 equals its line) while leg 11 wins
and leg 13 loses. -/
theorem resolve_parlay_bet_cases_witness :
    (exParlayState.parlays.get? 0 = some exParlay ∧
      exParlay.status = BetStatus.pending ∧
      (∀ leg ∈ exParlay.legs, (([(11, 25), (12, 8), (13, 2)] :
        List (ℕ × ℚ)).lookup leg.id).isSome) ∧
      (∃ leg ∈ exParlay.legs, ([(11, 25), (12, 8), (13, 2)] :
        List (ℕ × ℚ)).lookup leg.id = some leg.line)) ∧
    (∃ s' : TradingState,
      resolve_parlay_bet exParlayState 0 [(11, 25), (12, 8), (13, 2)]
          = some (s', 0) ∧
      (∃ parlay1 : ParlayBet, s'.parlays.get? 0 = some parlay1 ∧
        parlay1.status = BetStatus.void ∧ parlay1.profit_loss = 0) ∧
      s'.account.current_bankroll =
        exParlayState.account.current_bankroll + exParlay.stake ∧
      s'.account.total_bets_void = exParlayState.account.total_bets_void + 1) :=
  ⟨⟨rfl, rfl, by simp [exParlay, List.lookup], by simp [exParlay, List.lookup]⟩,
    (resolve_parlay_bet_cases exParlayState 0 exParlay [(11, 25), (12, 8), (13, 2)]
        rfl rfl (by simp [exParlay, List.lookup])).1
      (by simp [exParlay, List.lookup])⟩

/-- C10: legs whose ids are absent from the supplied results map are skipped
and left unchanged (they stay pending); whenever every leg that is present
wins and none pushes — vacuously so for an empty map — the parlay is marked
won and the full potential payout is credited even though the absent legs
never received a realized result. -/
theorem resolve_parlay_bet_absent_legs (s : TradingState) (i : ℕ)
    (parlay : ParlayBet) (rs : List (ℕ × ℚ)) (hget : s.parlays.get? i = some parlay)
    (hp : parlay.status = BetStatus.pending)
    (hwin : ∀ leg ∈ parlay.legs, ∀ a, rs.lookup leg.id = some a →
      a ≠ leg.line ∧ winCond leg.direction a leg.line) :
    ∃ s' : TradingState,
      resolve_parlay_bet s i rs
          = some (s', parlay.potential_payout - parlay.stake) ∧
      ∃ parlay1 : ParlayBet, s'.parlays.get? i = some parlay1 ∧
        parlay1.status = BetStatus.won ∧
        s'.account.current_bankroll =
          s.account.current_bankroll + parlay.potential_payout ∧
        s'.account.total_bets_won = s.account.total_bets_won + 1 ∧
        (∀ (j : ℕ) (leg : ParlayLeg), parlay.legs.get? j = some leg →
          rs.lookup leg.id = none → parlay1.legs.get? j = some leg) := by
  obtain ⟨hlt, -⟩ := List.get?_eq_some.mp hget
  have hset : ∀ p1 : ParlayBet, (s.parlays.set i p1).get? i = some p1 :=
    fun p1 => List.get?_set_eq_of_lt p1 hlt
  unfold resolve_parlay_bet
  rw [hget]
  dsimp only
  rw [if_neg (not_not_intro hp)]
  have hv : ¬ ((resolve_legs rs parlay.legs).2.2 = true) := by
    rw [resolve_legs_any_void_iff]
    rintro ⟨leg, hmem, hlk⟩
    exact (hwin leg hmem leg.line hlk).1 rfl
  have hw : (resolve_legs rs parlay.legs).2.1 = true := by
    rw [resolve_legs_all_won_iff]
    intro leg hmem a ha
    exact Or.inr (hwin leg hmem a ha).2
  rw [if_neg hv, if_pos hw]
  exact ⟨_, rfl, _, hset _, rfl, rfl, rfl,
    fun j leg hj hn => resolve_legs_skip_get? rs parlay.legs j leg hj hn⟩

/-- C10 witness: the instantiation at the three-leg parlay `exParlay` with an
empty results map: no leg receives a result, yet the parlay is marked won,
and (for example) leg 0 is returned unchanged, still pending. -/
theorem resolve_parlay_bet_absent_legs_witness :
    (exParlayState.parlays.get? 0 = some exParlay ∧
      exParlay.status = BetStatus.pending ∧
      (∀ leg ∈ exParlay.legs, ∀ a : ℚ, ([] : List (ℕ × ℚ)).lookup leg.id = some a →
        a ≠ leg.line ∧ winCond leg.direction a leg.line)) ∧
    (∃ s' : TradingState,
      resolve_parlay_bet exParlayState 0 []
          = some (s', exParlay.potential_payout - exParlay.stake) ∧
      ∃ parlay1 : ParlayBet, s'.parlays.get? 0 = some parlay1 ∧
        parlay1.status = BetStatus.won ∧
        s'.account.current_bankroll =
          exParlayState.account.current_bankroll + exParlay.potential_payout ∧
        s'.account.total_bets_won = exParlayState.account.total_bets_won + 1 ∧
        (∀ (j : ℕ) (leg : ParlayLeg), exParlay.legs.get? j = some leg →
          ([] : List (ℕ × ℚ)).lookup leg.id = none →
            parlay1.legs.get? j = some leg)) :=
  ⟨⟨rfl, rfl, by simp [List.lookup]⟩,
    resolve_parlay_bet_absent_legs exParlayState 0 exParlay [] rfl rfl
      (by simp [List.lookup])⟩

end NbaBetting
